import Mathlib

/-!
Shallow embedding of the PhonePilot arm-control core
(`electron/mcp/state.ts`, `electron/mcp/tools/{captureFrame,armMove,armClick,armDisconnect}.ts`,
and the frame-capture correlator of `electron/main.ts`).

Conventions of the embedding:
* JS numbers are modelled as `ℚ` (the values occurring here are exact
  decimals, far from float rounding); resource handles, which come from
  `parseInt`, are modelled as `ℤ`.
* The injected `httpRequest` callback is modelled as an oracle
  `Nat → Except String String`: call number `i` of an operation either
  throws (`Except.error msg`, the `msg` being the JS error message) or
  returns the response body.  `captureFrame()` is modelled likewise as a
  single `Except String (Option String)`.
* `await delay(...)` has no observable effect in this model and is dropped.
* Each stateful operation becomes a pure function from the pre
  `ArmState` (plus its oracles) to its output, the post `ArmState`, and —
  where a claim needs it — the list of URLs passed to `httpRequest`, in
  call order.
-/

namespace PhonePilot

/-- Structure `ArmState` from `electron/mcp/state.ts`. -/
structure ArmState where
  isConnected : Bool
  resourceHandle : ℤ
  serverIP : String
  comPort : String
  currentX : ℚ
  currentY : ℚ
  zDepth : ℚ
deriving Repr, DecidableEq

/-- Constant `ARM_CONFIG.defaultServerIP`. -/
def defaultServerIP : String := "192.168.5.106"

/-- Constant `ARM_CONFIG.apiPort`. -/
def apiPort : String := "8082"

/-- Constant `ARM_CONFIG.defaultComPort`. -/
def defaultComPort : String := "COM3"

/-- Constant `ARM_CONFIG.apiPath`. -/
def apiPath : String := "/MyWcfService/getstring"

/-- Constant `ARM_CONFIG.defaultZDepth`. -/
def defaultZDepth : ℚ := 12

/-- Constant `ARM_CONFIG.zUp`. -/
def zUp : ℚ := 0

/-- The initial value of the module-level `armState` in `state.ts`; also the
state installed by `resetArmState()`. -/
def initialArmState : ArmState :=
  { isConnected := false
    resourceHandle := 0
    serverIP := defaultServerIP
    comPort := defaultComPort
    currentX := 0
    currentY := 0
    zDepth := defaultZDepth }

/-- Function `resetArmState()` from `state.ts`: replaces the state with the defaults. -/
def resetArmState (_st : ArmState) : ArmState := initialArmState

/-- Function `buildArmApiUrl` from `state.ts`.  `URLSearchParams` percent-encoding is the
identity on every character the call sites produce (digits, letters, `.`),
so the query string is plain concatenation. -/
def buildArmApiUrl (serverIP : String) (duankou : String) (hco : ℤ)
    (daima : String) : String :=
  "http://" ++ serverIP ++ ":" ++ apiPort ++ apiPath ++
    "?duankou=" ++ duankou ++ "&hco=" ++ toString hco ++ "&daima=" ++ daima

/-- First alternative of the regex `/^"|"$/g`: drop a leading `"` if present. -/
def dropLeadQuote (cs : List Char) : List Char :=
  if cs.head? = some '"' then cs.tail else cs

/-- Second alternative of the regex `/^"|"$/g`: drop a trailing `"` if present. -/
def dropTailQuote (cs : List Char) : List Char :=
  if cs.getLast? = some '"' then cs.dropLast else cs

/-- One pass of the regex `/^"|"$/g` on a character list: the two anchored
alternatives are the only possible matches, applied left to right (on the
one-character string `"` the JS engine removes the leading match and then
finds no second character, which this composition reproduces). -/
def stripQuotes (cs : List Char) : List Char :=
  dropTailQuote (dropLeadQuote cs)

/-- Function `parseServerResponse` from `state.ts`: `response.replace(/^"|"$/g, '')`. -/
def parseServerResponse (response : String) : String :=
  ⟨stripQuotes response.data⟩

/-- JS whitespace skipped by `parseInt` (the code points that can occur in
responses of this API). -/
def jsWhitespace (c : Char) : Bool :=
  c = ' ' ∨ c = '\t' ∨ c = '\n' ∨ c = '\r'

/-- Numeric value of a decimal digit character. -/
def digitVal (c : Char) : ℕ := c.toNat - '0'.toNat

/-- JS `parseInt(s, 10)`: skip leading whitespace, optional sign, then the
longest prefix of decimal digits; `none` models `NaN` (no digits). -/
def jsParseInt (s : String) : Option ℤ :=
  let cs := s.data.dropWhile jsWhitespace
  let signAndRest : ℤ × List Char := match cs with
    | '-' :: rest => (-1, rest)
    | '+' :: rest => (1, rest)
    | other => (1, other)
  let ds := signAndRest.2.takeWhile Char.isDigit
  match ds with
  | [] => none
  | _ => some (signAndRest.1 * (ds.foldl (fun acc c => 10 * acc + (digitVal c : ℤ)) 0))

/-- Function `parseResourceHandle` from `state.ts`: unquote, `parseInt`, `NaN ↦ 0`. -/
def parseResourceHandle (response : String) : ℤ :=
  match jsParseInt (parseServerResponse response) with
  | none => 0
  | some handle => handle

/-- JS `Math.round`: round half toward positive infinity, `⌊q + 1/2⌋`,
written on the numerator/denominator so that it evaluates by kernel
reduction (`jsRound_eq_floor` below proves the two forms equal). -/
def jsRound (q : ℚ) : ℤ := (2 * q.num + (q.den : ℤ)) / (2 * (q.den : ℤ))

/-- Clamp `Math.max(0, Math.round(q))` as used by `executeArmMove`. -/
def clampCoord (q : ℚ) : ℤ := max 0 (jsRound q)

/-- JS `input.field || default` on an optional string: `undefined` and the
empty string are both falsy. -/
def jsOrDefault (o : Option String) (d : String) : String :=
  match o with
  | none => d
  | some s => if s = "" then d else s

/-- The `httpRequest` callback injected into every tool: call number `i`
either returns a body or throws with a message. -/
def HttpOracle : Type := ℕ → Except String String

/-- The behaviour of `captureFrame()` during one tool execution: it can
reject (the rejection's message) or resolve to a frame or `null`. -/
def FrameOracle : Type := Except String (Option String)

/-! ### arm-connect (`tools/captureFrame.ts`, `executeArmConnect`) -/

/-- Input of `executeArmConnect` (after zod parsing; both fields optional). -/
structure ArmConnectInput where
  serverIP : Option String
  comPort : Option String

/-- Output type `ArmConnectOutput` from `tools/captureFrame.ts`. -/
structure ArmConnectOutput where
  success : Bool
  message : String
  handle : Option ℤ
deriving Repr, DecidableEq

/-- Function `executeArmConnect`: guard on `isConnected`, record the requested
serverIP/comPort, send command `"0"` with handle `0`, parse the handle,
and connect only when the parsed handle is positive.  Returns the output
and the post `ArmState`. -/
def executeArmConnect (input : ArmConnectInput) (st : ArmState)
    (http : HttpOracle) : ArmConnectOutput × ArmState :=
  if st.isConnected then
    ({ success := false
       message := "Already connected. Disconnect first before reconnecting."
       handle := none }, st)
  else
    let serverIP := jsOrDefault input.serverIP defaultServerIP
    let comPort := jsOrDefault input.comPort defaultComPort
    let st1 := { st with serverIP := serverIP, comPort := comPort }
    match http 0 with
    | Except.error e =>
        ({ success := false, message := "Connection failed: " ++ e
           handle := none }, st1)
    | Except.ok response =>
        let resourceHandle := parseResourceHandle response
        if 0 < resourceHandle then
          ({ success := true
             message := "Connected to arm controller on " ++ comPort ++
               ". Handle: " ++ toString resourceHandle
             handle := some resourceHandle },
           { st1 with isConnected := true, resourceHandle := resourceHandle,
                      currentX := 0, currentY := 0 })
        else
          ({ success := false
             message := "Failed to open port " ++ comPort ++
               ". Check if port is occupied or device is connected."
             handle := none }, st1)

/-! ### arm-move (`tools/armMove.ts`) -/

/-- Input of `executeArmMove` (after zod parsing: `x`, `y` are numbers,
`returnFrame` has its default applied). -/
structure ArmMoveInput where
  x : ℚ
  y : ℚ
  returnFrame : Bool

/-- Output type `ArmMoveOutput` from `tools/armMove.ts`. -/
structure ArmMoveOutput where
  success : Bool
  message : String
  position : Option (ℚ × ℚ)
  previousPosition : Option (ℚ × ℚ)
deriving Repr, DecidableEq

/-- Result of `executeArmMove`: the output, the post state, and the frame. -/
structure ArmMoveResult where
  output : ArmMoveOutput
  state : ArmState
  frame : Option String

/-- Function `executeArmMove`: guard on connection, clamp `x`/`y` with
`Math.max(0, Math.round(.))`, send one combined `X..Y..` command, update
the position, then optionally capture a frame (a rejected capture is
caught by the same `catch`, after the position update). -/
def executeArmMove (input : ArmMoveInput) (st : ArmState)
    (http : HttpOracle) (fr : FrameOracle) : ArmMoveResult :=
  if st.isConnected = false ∨ st.resourceHandle ≤ 0 then
    { output := { success := false
                  message := "Not connected to arm controller. Call arm-connect first."
                  position := none, previousPosition := none }
      state := st, frame := none }
  else
    let newX := clampCoord input.x
    let newY := clampCoord input.y
    let previousX := st.currentX
    let previousY := st.currentY
    match http 0 with
    | Except.error e =>
        { output := { success := false, message := "Move failed: " ++ e
                      position := none, previousPosition := none }
          state := st, frame := none }
    | Except.ok _ =>
        let st2 := { st with currentX := (newX : ℚ), currentY := (newY : ℚ) }
        let ok : ArmMoveOutput :=
          { success := true
            message := "Moved from (" ++ toString previousX ++ ", " ++
              toString previousY ++ ") to (" ++ toString newX ++ ", " ++
              toString newY ++ ")"
            position := some ((newX : ℚ), (newY : ℚ))
            previousPosition := some (previousX, previousY) }
        if input.returnFrame then
          match fr with
          | Except.error e =>
              { output := { success := false, message := "Move failed: " ++ e
                            position := none, previousPosition := none }
                state := st2, frame := none }
          | Except.ok f => { output := ok, state := st2, frame := f }
        else
          { output := ok, state := st2, frame := none }

/-! ### arm-click (`tools/armClick.ts`) -/

/-- Input of `executeArmClick` (`depth ?? ARM_CONFIG.defaultZDepth` in the
code tolerates a missing depth, hence `Option`). -/
structure ArmClickInput where
  depth : Option ℚ
  returnFrame : Bool

/-- Output type `ArmClickOutput` from `tools/armClick.ts`. -/
structure ArmClickOutput where
  success : Bool
  message : String
  position : Option (ℚ × ℚ)
  depth : Option ℚ
deriving Repr, DecidableEq

/-- Result of `executeArmClick`: output, post state, frame, and the URLs
passed to `httpRequest` in call order. -/
structure ArmClickResult where
  output : ArmClickOutput
  state : ArmState
  frame : Option String
  calls : List String

/-- Function `executeArmClick`: guard on connection, then — inside one `try` block —
pen-down (`Z<depth>`), click delay, pen-up (`Z0`), state update, optional
frame capture.  A throw anywhere in the block jumps to the `catch`. -/
def executeArmClick (input : ArmClickInput) (st : ArmState)
    (http : HttpOracle) (fr : FrameOracle) : ArmClickResult :=
  if st.isConnected = false ∨ st.resourceHandle ≤ 0 then
    { output := { success := false
                  message := "Not connected to arm controller. Call arm-connect first."
                  position := none, depth := none }
      state := st, frame := none, calls := [] }
  else
    let zDepth := input.depth.getD defaultZDepth
    let downUrl := buildArmApiUrl st.serverIP "0" st.resourceHandle
      ("Z" ++ toString zDepth)
    match http 0 with
    | Except.error e =>
        { output := { success := false, message := "Click failed: " ++ e
                      position := none, depth := none }
          state := st, frame := none, calls := [downUrl] }
    | Except.ok _ =>
        let upUrl := buildArmApiUrl st.serverIP "0" st.resourceHandle
          ("Z" ++ toString zUp)
        match http 1 with
        | Except.error e =>
            { output := { success := false, message := "Click failed: " ++ e
                          position := none, depth := none }
              state := st, frame := none, calls := [downUrl, upUrl] }
        | Except.ok _ =>
            let st2 := { st with zDepth := zDepth }
            let ok : ArmClickOutput :=
              { success := true
                message := "Clicked at position (" ++ toString st.currentX ++
                  ", " ++ toString st.currentY ++ ") with depth Z" ++
                  toString zDepth
                position := some (st.currentX, st.currentY)
                depth := some zDepth }
            if input.returnFrame then
              match fr with
              | Except.error e =>
                  { output := { success := false
                                message := "Click failed: " ++ e
                                position := none, depth := none }
                    state := st2, frame := none, calls := [downUrl, upUrl] }
              | Except.ok f =>
                  { output := ok, state := st2, frame := f
                    calls := [downUrl, upUrl] }
            else
              { output := ok, state := st2, frame := none
                calls := [downUrl, upUrl] }

/-! ### arm-disconnect (`tools/armDisconnect.ts`) -/

/-- Output type `ArmDisconnectOutput` from `tools/armDisconnect.ts`. -/
structure ArmDisconnectOutput where
  success : Bool
  message : String
deriving Repr, DecidableEq

/-- Function `executeArmDisconnect`: if not connected, reset and report success;
otherwise send `X0Y0Z0`, wait, send the close command `"0"`, and reset —
the `catch` also resets, so every path ends in `resetArmState()`. -/
def executeArmDisconnect (st : ArmState) (http : HttpOracle) :
    ArmDisconnectOutput × ArmState :=
  if st.isConnected = false ∨ st.resourceHandle ≤ 0 then
    ({ success := true, message := "Not connected. State has been reset." },
     resetArmState st)
  else
    match http 0 with
    | Except.error e =>
        ({ success := true
           message := "Disconnected with warning: " ++ e ++
             ". State has been reset." }, resetArmState st)
    | Except.ok _ =>
        match http 1 with
        | Except.error e =>
            ({ success := true
               message := "Disconnected with warning: " ++ e ++
                 ". State has been reset." }, resetArmState st)
        | Except.ok _ =>
            ({ success := true
               message := "Disconnected from arm controller. Position reset to origin." },
             resetArmState st)

/-! ### Frame-capture correlator (`electron/main.ts`)

`captureFrameFromRenderer` stores a resolver in the module-level
`pendingFrameResolve` slot and arms a 5-second timeout; the
`mcp-capture-frame-response` IPC handler calls whatever resolver the slot
currently holds.  We model the event loop: requests are numbered, the
state tracks which request's resolver occupies the slot, which timeouts
are still armed (not cleared), and the resolutions delivered to callers in
order.  A `timeout i` event is processed only while timer `i` is armed
(a cleared JS timer never fires), so every event list corresponds to a
possible interleaving. -/

/-- State of the correlator: the `pendingFrameResolve` slot (by request
number), the armed timeout handles, and the resolutions delivered so far. -/
structure CorrState where
  slot : Option ℕ
  timers : List ℕ
  resolved : List (ℕ × Option String)
deriving Repr, DecidableEq

/-- Correlator before any request. -/
def corrInit : CorrState := { slot := none, timers := [], resolved := [] }

/-- Events of the correlator's event loop. -/
inductive CorrEvent where
  /-- `captureFrameFromRenderer` is entered for request `i`. -/
  | request (i : ℕ)
  /-- The renderer posts `mcp-capture-frame-response` with this payload. -/
  | response (payload : Option String)
  /-- The 5-second timer armed for request `i` fires. -/
  | timeout (i : ℕ)
deriving Repr, DecidableEq

/-- One event-loop step, transcribing `captureFrameFromRenderer` and the
`mcp-capture-frame-response` handler:
* `request i` arms timer `i` and overwrites the slot with resolver `i`
  (the previous occupant's timer is NOT cleared);
* `response p` runs the resolver in the slot, if any: it clears its own
  timer, nulls the slot, and resolves its caller with `p`; with an empty
  slot it is a no-op;
* `timeout i` (only while timer `i` is armed) nulls the slot
  unconditionally and resolves caller `i` with `null`. -/
def corrStep (s : CorrState) (e : CorrEvent) : CorrState :=
  match e with
  | CorrEvent.request i =>
      { s with slot := some i, timers := i :: s.timers }
  | CorrEvent.response p =>
      match s.slot with
      | none => s
      | some j =>
          { slot := none, timers := s.timers.filter (fun t => t ≠ j)
            resolved := s.resolved ++ [(j, p)] }
  | CorrEvent.timeout i =>
      if i ∈ s.timers then
        { slot := none, timers := s.timers.filter (fun t => t ≠ i)
          resolved := s.resolved ++ [(i, none)] }
      else s

/-- Run the correlator event loop from a state. -/
def corrRunFrom (s : CorrState) (es : List CorrEvent) : CorrState :=
  es.foldl corrStep s

/-- Run the correlator event loop from the initial state. -/
def corrRun (es : List CorrEvent) : CorrState := corrRunFrom corrInit es

/-! ### Operation sequences over `ArmState` -/

/-- One tool invocation together with the oracle behaviour it meets. -/
inductive ArmOp where
  | connect (input : ArmConnectInput) (http : HttpOracle)
  | disconnect (http : HttpOracle)
  | move (input : ArmMoveInput) (http : HttpOracle) (fr : FrameOracle)
  | click (input : ArmClickInput) (http : HttpOracle) (fr : FrameOracle)
  | reset

/-- Post `ArmState` of one operation. -/
def armStep (st : ArmState) : ArmOp → ArmState
  | ArmOp.connect input http => (executeArmConnect input st http).2
  | ArmOp.disconnect http => (executeArmDisconnect st http).2
  | ArmOp.move input http fr => (executeArmMove input st http fr).state
  | ArmOp.click input http fr => (executeArmClick input st http fr).state
  | ArmOp.reset => resetArmState st

/-- State after a sequence of operations from the initial state. -/
def armRun (ops : List ArmOp) : ArmState := ops.foldl armStep initialArmState

/-- The connection invariant of §3 of the spec. -/
def handleInvariant (st : ArmState) : Prop :=
  0 < st.resourceHandle ↔ st.isConnected = true

/-! ### Move sequences (claim C6) -/

/-- One `arm-move` call: its input and the oracles it meets. -/
structure MoveCall where
  input : ArmMoveInput
  http : HttpOracle
  fr : FrameOracle

/-- Whether a move call's (single) transport request succeeds. -/
def MoveCall.transportOk (m : MoveCall) : Bool :=
  match m.http 0 with
  | Except.ok _ => true
  | Except.error _ => false

/-- Run a sequence of `arm-move` calls. -/
def runMoves (st : ArmState) (ms : List MoveCall) : ArmState :=
  ms.foldl (fun s m => (executeArmMove m.input s m.http m.fr).state) st

/-- The position the code tracks after a sequence of moves: the clamped
target of the last move whose transport call succeeded, or the start
value if none did. -/
def lastOkTarget (startv : ℚ) (proj : ArmMoveInput → ℚ) (ms : List MoveCall) : ℚ :=
  ms.foldl (fun a m => if m.transportOk then (clampCoord (proj m.input) : ℚ) else a)
    startv

/-! ### Concrete fixtures used to instantiate theorems -/

/-- A connected state, as left by a successful `arm-connect` returning
handle 1136. -/
def connectedState : ArmState :=
  { initialArmState with isConnected := true, resourceHandle := 1136 }

/-- An `httpRequest` whose every call succeeds with body `"1"`. -/
def httpAlwaysOk : HttpOracle := fun _ => Except.ok "1"

/-- An `httpRequest` whose every call rejects. -/
def httpAlwaysFail : HttpOracle := fun _ => Except.error "Request error: network down"

/-- An `httpRequest` whose first call rejects (any later call would
succeed) — the transport-failure-on-the-first-call-only scenario. -/
def httpFailFirst : HttpOracle := fun i =>
  if i = 0 then Except.error "Request error: network down" else Except.ok "1"

/-- An `arm-move` call to target `(x, y)` whose transport succeeds and
that skips the frame capture. -/
def moveCallTo (x y : ℚ) : MoveCall :=
  { input := { x := x, y := y, returnFrame := false }
    http := httpAlwaysOk
    fr := Except.ok none }

/-! ### Single-request correlator runs (claim C4) -/

/-- Events that can follow a single capture request in a run where no
second request is issued: renderer responses (any number, any payload)
and the firing of that request's own 5-second timer. -/
def isTailEvent (e : CorrEvent) : Bool :=
  match e with
  | CorrEvent.request _ => false
  | CorrEvent.response _ => true
  | CorrEvent.timeout i => i = 0

/-- The first resolving event of an event list: the payload of the first
response, or `none` if a timeout fires first; `none` outcome of the match
when no resolving event occurs. -/
def firstOutcome : List CorrEvent → Option (Option String)
  | [] => none
  | CorrEvent.response p :: _ => some p
  | CorrEvent.timeout _ :: _ => some none
  | CorrEvent.request _ :: es => firstOutcome es

/-- Correlator state right after request 0 is issued: its resolver holds
the slot, its timer is armed, nobody resolved yet. -/
def pendingState : CorrState :=
  { slot := some 0, timers := [0], resolved := [] }

/-- Correlator state after request 0 was resolved with `v`: empty slot, no
armed timer, exactly one delivered resolution. -/
def resolvedState (v : Option String) : CorrState :=
  { slot := none, timers := [], resolved := [(0, v)] }

/-! ## Theorems -/

/-- The numerator/denominator form of `jsRound` agrees with the textbook
description of JS `Math.round`, `⌊q + 1/2⌋`. -/
theorem jsRound_eq_floor (q : ℚ) : jsRound q = ⌊q + 1 / 2⌋ := by
  have hden : ((q.den : ℚ)) ≠ 0 := by
    exact_mod_cast q.den_nz
  have hq : (q.num : ℚ) = q * (q.den : ℚ) :=
    (div_eq_iff hden).mp (Rat.num_div_den q)
  have h : q + 1 / 2 =
      (((2 * q.num + (q.den : ℤ)) : ℤ) : ℚ) / (((2 * q.den : ℕ) : ℕ) : ℚ) := by
    rw [eq_div_iff (by push_cast; positivity)]
    push_cast
    linear_combination (-2 : ℚ) * hq
  rw [jsRound, h, Rat.floor_intCast_div_natCast]
  push_cast
  rfl

/-- State effect of `executeArmMove` while connected: the transport result
alone decides whether the position is set to the clamped target or left
unchanged (a rejected frame capture happens after the position update). -/
theorem executeArmMove_state_eq (input : ArmMoveInput) (st : ArmState)
    (http : HttpOracle) (fr : FrameOracle)
    (h1 : st.isConnected = true) (h2 : 0 < st.resourceHandle) :
    (executeArmMove input st http fr).state =
      (match http 0 with
       | Except.error _ => st
       | Except.ok _ =>
           { st with currentX := (clampCoord input.x : ℚ)
                     currentY := (clampCoord input.y : ℚ) }) := by
  unfold executeArmMove
  rw [if_neg]
  · cases hh : http 0 with
    | error e => rfl
    | ok r =>
      by_cases hrf : input.returnFrame
      · cases hfr : fr with
        | error e => simp [hrf]
        | ok f => simp [hrf]
      · simp [hrf]
  · rintro (hc | hr)
    · rw [h1] at hc; exact Bool.noConfusion hc
    · exact absurd h2 (not_lt.mpr hr)

/-- State effect of `executeArmMove` in general: the post state is the pre
state, or the pre state with only the position replaced. -/
theorem executeArmMove_state_cases (input : ArmMoveInput) (st : ArmState)
    (http : HttpOracle) (fr : FrameOracle) :
    (executeArmMove input st http fr).state = st ∨
    (executeArmMove input st http fr).state =
      { st with currentX := (clampCoord input.x : ℚ)
                currentY := (clampCoord input.y : ℚ) } := by
  unfold executeArmMove
  split
  · exact Or.inl rfl
  · cases hh : http 0 with
    | error e => exact Or.inl rfl
    | ok r =>
      by_cases hrf : input.returnFrame
      · cases hfr : fr with
        | error e => simp [hrf]
        | ok f => simp [hrf]
      · simp [hrf]

/-- A successful `arm-move` implies the transport call succeeded, and the
post state is the pre state with exactly the position replaced; the output
carries the new and the previous position. -/
theorem executeArmMove_success (input : ArmMoveInput) (st : ArmState)
    (http : HttpOracle) (fr : FrameOracle)
    (h : (executeArmMove input st http fr).output.success = true) :
    (executeArmMove input st http fr).state =
      { st with currentX := (clampCoord input.x : ℚ)
                currentY := (clampCoord input.y : ℚ) } ∧
    (executeArmMove input st http fr).output.position =
      some ((clampCoord input.x : ℚ), (clampCoord input.y : ℚ)) ∧
    (executeArmMove input st http fr).output.previousPosition =
      some (st.currentX, st.currentY) := by
  by_cases hg : st.isConnected = false ∨ st.resourceHandle ≤ 0
  · unfold executeArmMove at h
    rw [if_pos hg] at h
    exact absurd h (by simp)
  · unfold executeArmMove at h ⊢
    rw [if_neg hg] at h ⊢
    cases hh : http 0 with
    | error e => simp_all
    | ok r =>
      by_cases hrf : input.returnFrame = true
      · cases fr with
        | error e => simp_all
        | ok f => simp_all
      · simp_all

/-- On a transport error, `executeArmMove` reports failure and returns the
pre state unchanged. -/
theorem executeArmMove_transport_error (input : ArmMoveInput) (st : ArmState)
    (http : HttpOracle) (fr : FrameOracle) (e : String)
    (he : http 0 = Except.error e) :
    (executeArmMove input st http fr).state = st ∧
    (executeArmMove input st http fr).output.success = false := by
  unfold executeArmMove
  split
  · exact ⟨rfl, rfl⟩
  · rw [he]
    exact ⟨rfl, rfl⟩

/-- State effect of `executeArmClick` in general: the post state is the pre
state, or the pre state with only `zDepth` replaced. -/
theorem executeArmClick_state_cases (input : ArmClickInput) (st : ArmState)
    (http : HttpOracle) (fr : FrameOracle) :
    (executeArmClick input st http fr).state = st ∨
    (executeArmClick input st http fr).state =
      { st with zDepth := input.depth.getD defaultZDepth } := by
  unfold executeArmClick
  split
  · exact Or.inl rfl
  · cases h0 : http 0 with
    | error e => exact Or.inl rfl
    | ok r0 =>
      cases h1 : http 1 with
      | error e => exact Or.inl rfl
      | ok r1 =>
        by_cases hrf : input.returnFrame
        · cases hfr : fr with
          | error e => simp [hrf]
          | ok f => simp [hrf]
        · simp [hrf]

/-- A successful `arm-click` leaves every field except `zDepth` unchanged
(the position in particular), and sets `zDepth` to the used depth. -/
theorem executeArmClick_success (input : ArmClickInput) (st : ArmState)
    (http : HttpOracle) (fr : FrameOracle)
    (h : (executeArmClick input st http fr).output.success = true) :
    (executeArmClick input st http fr).state =
      { st with zDepth := input.depth.getD defaultZDepth } := by
  by_cases hg : st.isConnected = false ∨ st.resourceHandle ≤ 0
  · unfold executeArmClick at h
    rw [if_pos hg] at h
    exact absurd h (by simp)
  · unfold executeArmClick at h ⊢
    rw [if_neg hg] at h ⊢
    cases h0 : http 0 with
    | error e => simp_all
    | ok r0 =>
      cases h1 : http 1 with
      | error e => simp_all
      | ok r1 =>
        by_cases hrf : input.returnFrame = true
        · cases fr with
          | error e => simp_all
          | ok f => simp_all
        · simp_all

/-- On either transport error, `executeArmClick` reports failure and
returns the pre state unchanged. -/
theorem executeArmClick_transport_error (input : ArmClickInput) (st : ArmState)
    (http : HttpOracle) (fr : FrameOracle) :
    (∀ e, http 0 = Except.error e →
      (executeArmClick input st http fr).state = st ∧
      (executeArmClick input st http fr).output.success = false) ∧
    (∀ r e, http 0 = Except.ok r → http 1 = Except.error e →
      (executeArmClick input st http fr).state = st ∧
      (executeArmClick input st http fr).output.success = false) := by
  constructor
  · intro e he
    unfold executeArmClick
    split
    · exact ⟨rfl, rfl⟩
    · rw [he]
      exact ⟨rfl, rfl⟩
  · intro r e hr he
    unfold executeArmClick
    split
    · exact ⟨rfl, rfl⟩
    · rw [hr, he]
      exact ⟨rfl, rfl⟩

/-- C1: the claim fails on the code.  With the arm connected (handle 1136)
and an `httpRequest` that throws on its first call, `executeArmClick`
issues only the pen-down URL: both sub-commands sit in one `try` block, so
the pen-down throw jumps to the `catch` and the pen-up command (`Z0`) is
never attempted — the stylus is left lowered. -/
theorem click_pen_down_throw_skips_pen_up :
    (executeArmClick { depth := some 12, returnFrame := true } connectedState
        httpFailFirst (Except.ok none)).calls =
      [buildArmApiUrl defaultServerIP "0" 1136 "Z12"] ∧
    buildArmApiUrl defaultServerIP "0" 1136 ("Z" ++ toString zUp) ∉
      (executeArmClick { depth := some 12, returnFrame := true } connectedState
        httpFailFirst (Except.ok none)).calls ∧
    (executeArmClick { depth := some 12, returnFrame := true } connectedState
        httpFailFirst (Except.ok none)).output.success = false := by
  refine ⟨by decide, by decide, by decide⟩

/-- C2: the claim fails on the code.  Two capture requests issued
back-to-back: the second `captureFrameFromRenderer` silently overwrites
`pendingFrameResolve` (the slot holds resolver 1, resolver 0 is gone —
nothing is queued and nothing is rejected), the renderer's timely response
resolves caller 1, and caller 0 receives only `null` when its own timeout
fires, never the correlated response intended for it. -/
theorem capture_overwrite_drops_first_caller :
    (corrRun [CorrEvent.request 0, CorrEvent.request 1]).slot = some 1 ∧
    (corrRun [CorrEvent.request 0, CorrEvent.request 1,
        CorrEvent.response (some "frame1"), CorrEvent.timeout 0]).resolved =
      [(1, some "frame1"), (0, none)] := by
  exact ⟨by decide, by decide⟩

/-- Every path of `executeArmDisconnect` — not-connected guard, both
commands succeeding, either command throwing — ends in `resetArmState()`
and reports success. -/
theorem executeArmDisconnect_resets (st : ArmState) (http : HttpOracle) :
    (executeArmDisconnect st http).2 = initialArmState ∧
    (executeArmDisconnect st http).1.success = true := by
  unfold executeArmDisconnect
  split
  · exact ⟨rfl, rfl⟩
  · cases http 0 with
    | error e => exact ⟨rfl, rfl⟩
    | ok r =>
      cases http 1 with
      | error e => exact ⟨rfl, rfl⟩
      | ok r2 => exact ⟨rfl, rfl⟩

/-- C3: for every pre-state and every behaviour of the injected
`httpRequest`, `executeArmDisconnect` reports success and leaves `ArmState`
at the defaults; in particular disconnecting while not connected succeeds
and resets, and a second disconnect can never leave `isConnected = true`. -/
theorem disconnect_resets_state_unconditionally :
    ∀ (st : ArmState) (http http2 : HttpOracle),
      (executeArmDisconnect st http).2 = initialArmState ∧
      (executeArmDisconnect st http).1.success = true ∧
      (executeArmDisconnect (executeArmDisconnect st http).2 http2).2 =
        initialArmState ∧
      (executeArmDisconnect (executeArmDisconnect st http).2 http2).2.isConnected
        = false := by
  intro st http http2
  refine ⟨(executeArmDisconnect_resets st http).1,
    (executeArmDisconnect_resets st http).2,
    (executeArmDisconnect_resets _ http2).1, ?_⟩
  rw [(executeArmDisconnect_resets _ http2).1]
  rfl

/-- Once request 0 is resolved, every further tail event is a no-op: a
late response finds the slot empty and a late firing of timer 0 finds the
timer cleared. -/
theorem corrRunFrom_resolvedState (v : Option String) :
    ∀ es : List CorrEvent, (∀ e ∈ es, isTailEvent e = true) →
      corrRunFrom (resolvedState v) es = resolvedState v := by
  intro es
  induction es with
  | nil => intro _; rfl
  | cons e es ih =>
    intro h
    have he := h e (List.mem_cons_self e es)
    have hrest : ∀ x ∈ es, isTailEvent x = true :=
      fun x hx => h x (List.mem_cons_of_mem _ hx)
    have hstep : corrRunFrom (resolvedState v) (e :: es) =
        corrRunFrom (corrStep (resolvedState v) e) es := rfl
    rw [hstep]
    cases e with
    | request i => simp [isTailEvent] at he
    | response p =>
      have : corrStep (resolvedState v) (CorrEvent.response p) =
          resolvedState v := rfl
      rw [this]
      exact ih hrest
    | timeout i =>
      have : corrStep (resolvedState v) (CorrEvent.timeout i) =
          resolvedState v := by
        simp [corrStep, resolvedState]
      rw [this]
      exact ih hrest

/-- From the pending state, the first tail event that resolves (a response
with its payload, or the timeout with `null`) moves the correlator to the
matching resolved state, and everything after is a no-op. -/
theorem corrRunFrom_pendingState :
    ∀ es : List CorrEvent, (∀ e ∈ es, isTailEvent e = true) →
      corrRunFrom pendingState es =
        (match firstOutcome es with
         | none => pendingState
         | some v => resolvedState v) := by
  intro es
  induction es with
  | nil => intro _; rfl
  | cons e es ih =>
    intro h
    have he := h e (List.mem_cons_self e es)
    have hrest : ∀ x ∈ es, isTailEvent x = true :=
      fun x hx => h x (List.mem_cons_of_mem _ hx)
    have hstep : corrRunFrom pendingState (e :: es) =
        corrRunFrom (corrStep pendingState e) es := rfl
    rw [hstep]
    cases e with
    | request i => simp [isTailEvent] at he
    | response p =>
      have h1 : corrStep pendingState (CorrEvent.response p) =
          resolvedState p := by
        simp [corrStep, pendingState, resolvedState]
      rw [h1, corrRunFrom_resolvedState p es hrest]
      rfl
    | timeout i =>
      have hi : i = 0 := by
        simpa [isTailEvent] using he
      subst hi
      have h1 : corrStep pendingState (CorrEvent.timeout 0) =
          resolvedState none := by
        simp [corrStep, pendingState, resolvedState]
      rw [h1, corrRunFrom_resolvedState none es hrest]
      rfl

/-- C4: a single capture request is resolved by exactly the first of
{response, timeout}: if a response precedes the timeout the caller gets
that exact payload; if the timer fires first the caller gets `null`, and
only the timeout event can deliver `null`; in either case exactly one
resolution is delivered and every later response or timer firing leaves
the correlator unchanged (no second resolution, no crash). -/
theorem capture_single_request_resolution :
    ∀ es : List CorrEvent, (∀ e ∈ es, isTailEvent e = true) →
      corrRun (CorrEvent.request 0 :: es) =
        (match firstOutcome es with
         | none => pendingState
         | some v => resolvedState v) ∧
      (corrRun (CorrEvent.request 0 :: es)).resolved =
        (match firstOutcome es with
         | none => []
         | some v => [(0, v)]) := by
  intro es h
  have h0 : corrRun (CorrEvent.request 0 :: es) = corrRunFrom pendingState es := rfl
  have h1 := corrRunFrom_pendingState es h
  refine ⟨h0.trans h1, ?_⟩
  rw [h0, h1]
  cases firstOutcome es with
  | none => rfl
  | some v => rfl

/-- C4 witness: a response before the timeout delivers that exact payload
once, and the later timer firing plus a late response are no-ops. -/
theorem capture_single_request_resolution_witness :
    List.all [CorrEvent.response (some "img"), CorrEvent.timeout 0,
        CorrEvent.response (some "late")] isTailEvent = true ∧
    (corrRun [CorrEvent.request 0, CorrEvent.response (some "img"),
        CorrEvent.timeout 0, CorrEvent.response (some "late")]).resolved =
      [(0, some "img")] :=
  ⟨by decide,
   (capture_single_request_resolution
      [CorrEvent.response (some "img"), CorrEvent.timeout 0,
       CorrEvent.response (some "late")] (by decide)).2⟩

/-- Operation `executeArmConnect` preserves the handle/connection invariant: it sets
`isConnected := true` only together with a positive parsed handle, and
every other branch leaves both fields as they were. -/
theorem executeArmConnect_invariant (input : ArmConnectInput) (st : ArmState)
    (http : HttpOracle) (hinv : handleInvariant st) :
    handleInvariant (executeArmConnect input st http).2 := by
  unfold executeArmConnect
  split
  · exact hinv
  · cases hh : http 0 with
    | error e => exact hinv
    | ok r =>
      dsimp only
      by_cases hpos : 0 < parseResourceHandle r
      · rw [if_pos hpos]
        exact ⟨fun _ => rfl, fun _ => hpos⟩
      · rw [if_neg hpos]
        exact hinv

/-- Every operation preserves the handle/connection invariant. -/
theorem armStep_invariant (st : ArmState) (op : ArmOp)
    (hinv : handleInvariant st) : handleInvariant (armStep st op) := by
  cases op with
  | connect input http => exact executeArmConnect_invariant input st http hinv
  | disconnect http =>
    show handleInvariant (executeArmDisconnect st http).2
    rw [(executeArmDisconnect_resets st http).1]
    exact ⟨fun h => absurd h (by decide), fun h => Bool.noConfusion h⟩
  | move input http fr =>
    show handleInvariant (executeArmMove input st http fr).state
    rcases executeArmMove_state_cases input st http fr with h | h <;>
      · rw [h]; exact hinv
  | click input http fr =>
    show handleInvariant (executeArmClick input st http fr).state
    rcases executeArmClick_state_cases input st http fr with h | h <;>
      · rw [h]; exact hinv
  | reset =>
    show handleInvariant initialArmState
    exact ⟨fun h => absurd h (by decide), fun h => Bool.noConfusion h⟩

/-- C9: in every state reachable from the initial state by any sequence of
connect / disconnect / move / click / reset operations, under any
behaviour of the transport and frame oracles, `resourceHandle > 0` holds
exactly when `isConnected` is true. -/
theorem handle_invariant_reachable :
    ∀ ops : List ArmOp, handleInvariant (armRun ops) := by
  intro ops
  have key : ∀ (l : List ArmOp) (st : ArmState), handleInvariant st →
      handleInvariant (l.foldl armStep st) := by
    intro l
    induction l with
    | nil => exact fun st h => h
    | cons op rest ih =>
      exact fun st h => ih (armStep st op) (armStep_invariant st op h)
  exact key ops initialArmState
    ⟨fun h => absurd h (by decide), fun h => Bool.noConfusion h⟩

/-- C5: calling `arm-connect` while already connected returns the fixed
already-connected failure and returns the pre-state unchanged — the guard
runs before any `updateArmState`. -/
theorem connect_when_connected_no_mutation :
    ∀ (input : ArmConnectInput) (st : ArmState) (http : HttpOracle),
      st.isConnected = true →
      executeArmConnect input st http =
        ({ success := false
           message := "Already connected. Disconnect first before reconnecting."
           handle := none }, st) := by
  intro input st http h
  unfold executeArmConnect
  rw [if_pos h]

/-- C5 witness: the already-connected guard at a concrete connected state. -/
theorem connect_when_connected_no_mutation_witness :
    connectedState.isConnected = true ∧
    executeArmConnect { serverIP := some "10.0.0.1", comPort := none }
        connectedState httpAlwaysOk =
      ({ success := false
         message := "Already connected. Disconnect first before reconnecting."
         handle := none }, connectedState) :=
  ⟨rfl, connect_when_connected_no_mutation
    { serverIP := some "10.0.0.1", comPort := none } connectedState
    httpAlwaysOk rfl⟩

/-- C7: the unquote step removes exactly one leading and one trailing
double quote when present and never touches interior characters (any `t`
wrapped in one pair of quotes comes back as `t`, and a `t` with neither a
leading nor a trailing quote is returned unchanged); on the concrete
vectors, a quoted `1136` unquotes to `1136`, a bare `1136` is unchanged,
and a quoted `0` parses to handle `0`, so `arm-connect` on such a response
fails with the failed-to-open-port message and stays disconnected. -/
theorem unquote_exact_and_connect_failure :
    (∀ t : String, parseServerResponse ("\"" ++ t ++ "\"") = t) ∧
    (∀ t : String, t.data.head? ≠ some '"' → t.data.getLast? ≠ some '"' →
      parseServerResponse t = t) ∧
    parseServerResponse "\"1136\"" = "1136" ∧
    parseServerResponse "1136" = "1136" ∧
    parseResourceHandle "\"0\"" = 0 ∧
    (∀ (input : ArmConnectInput) (st : ArmState) (http : HttpOracle)
      (resp : String),
      st.isConnected = false → http 0 = Except.ok resp →
      parseResourceHandle resp ≤ 0 →
      (executeArmConnect input st http).1.success = false ∧
      (executeArmConnect input st http).1.message =
        "Failed to open port " ++ jsOrDefault input.comPort defaultComPort ++
          ". Check if port is occupied or device is connected." ∧
      (executeArmConnect input st http).2.isConnected = false) := by
  refine ⟨?_, ?_, by decide, by decide, by decide, ?_⟩
  · intro t
    obtain ⟨cs⟩ := t
    have hdata : ("\"" ++ String.mk cs ++ "\"").data = '"' :: (cs ++ ['"']) := by
      simp [String.data_append]
    have h1 : dropLeadQuote ('"' :: (cs ++ ['"'])) = cs ++ ['"'] := rfl
    have h2 : dropTailQuote (cs ++ ['"']) = cs := by
      unfold dropTailQuote
      rw [if_pos (List.getLast?_concat cs), List.dropLast_concat]
    show (⟨stripQuotes ("\"" ++ String.mk cs ++ "\"").data⟩ : String) = ⟨cs⟩
    rw [hdata]
    unfold stripQuotes
    rw [h1, h2]
  · intro t h1 h2
    obtain ⟨cs⟩ := t
    have e1 : dropLeadQuote cs = cs := by
      unfold dropLeadQuote
      rw [if_neg h1]
    show (⟨stripQuotes cs⟩ : String) = ⟨cs⟩
    unfold stripQuotes
    rw [e1]
    unfold dropTailQuote
    rw [if_neg h2]
  · intro input st http resp hconn hhttp hle
    unfold executeArmConnect
    rw [if_neg (by simp [hconn])]
    dsimp only
    rw [hhttp]
    dsimp only
    rw [if_neg (not_lt.mpr hle)]
    exact ⟨rfl, rfl, hconn⟩

/-- C7 witness: the wrapping law at `abc`, the no-quote law at `1136`, and
the failing connect at a response of a quoted `0` from the disconnected
initial state. -/
theorem unquote_exact_and_connect_failure_witness :
    parseServerResponse "\"abc\"" = "abc" ∧
    parseServerResponse "1136" = "1136" ∧
    initialArmState.isConnected = false ∧
    parseResourceHandle "\"0\"" ≤ 0 ∧
    (executeArmConnect { serverIP := none, comPort := none } initialArmState
        (fun _ => Except.ok "\"0\"")).1.success = false ∧
    (executeArmConnect { serverIP := none, comPort := none } initialArmState
        (fun _ => Except.ok "\"0\"")).2.isConnected = false :=
  ⟨unquote_exact_and_connect_failure.1 "abc",
   unquote_exact_and_connect_failure.2.1 "1136" (by decide) (by decide),
   rfl, by decide,
   (unquote_exact_and_connect_failure.2.2.2.2.2
      { serverIP := none, comPort := none } initialArmState
      (fun _ => Except.ok "\"0\"") "\"0\"" rfl rfl (by decide)).1,
   (unquote_exact_and_connect_failure.2.2.2.2.2
      { serverIP := none, comPort := none } initialArmState
      (fun _ => Except.ok "\"0\"") "\"0\"" rfl rfl (by decide)).2.2⟩

/-- Over any sequence of `arm-move` calls from a connected state, the
tracked position is the clamped target of the last call whose transport
request succeeded (moves are absolute, so later successful calls
overwrite earlier ones). -/
theorem runMoves_tracks_lastOkTarget :
    ∀ (ms : List MoveCall) (st : ArmState),
      st.isConnected = true → 0 < st.resourceHandle →
      (runMoves st ms).currentX =
        lastOkTarget st.currentX (fun i => i.x) ms ∧
      (runMoves st ms).currentY =
        lastOkTarget st.currentY (fun i => i.y) ms := by
  intro ms
  induction ms with
  | nil => intro st _ _; exact ⟨rfl, rfl⟩
  | cons m rest ih =>
    intro st h1 h2
    have hstep := executeArmMove_state_eq m.input st m.http m.fr h1 h2
    have hrun : runMoves st (m :: rest) =
        runMoves (executeArmMove m.input st m.http m.fr).state rest := rfl
    cases hh : m.http 0 with
    | error e =>
      rw [hh] at hstep
      have hok : m.transportOk = false := by
        simp [MoveCall.transportOk, hh]
      have h' := ih st h1 h2
      rw [hrun, hstep]
      constructor
      · rw [h'.1]; simp [lastOkTarget, hok]
      · rw [h'.2]; simp [lastOkTarget, hok]
    | ok r =>
      rw [hh] at hstep
      have hok : m.transportOk = true := by
        simp [MoveCall.transportOk, hh]
      have h' := ih { st with currentX := (clampCoord m.input.x : ℚ)
                              currentY := (clampCoord m.input.y : ℚ) } h1 h2
      rw [hrun, hstep]
      constructor
      · rw [h'.1]; simp [lastOkTarget, hok]
      · rw [h'.2]; simp [lastOkTarget, hok]

/-- C6 counterexample: moves are absolute, not deltas.  From the connected
state at the origin, the successful moves to `(1, 0)` then `(2, 0)` leave
`x = 2`, the same calls in the other order leave `x = 1` — so the final
position depends on call order and does not equal the sum `1 + 2` of the
clamped inputs. -/
theorem move_sum_of_deltas_cex :
    (runMoves connectedState [moveCallTo 1 0, moveCallTo 2 0]).currentX = 2 ∧
    (runMoves connectedState [moveCallTo 2 0, moveCallTo 1 0]).currentX = 1 ∧
    (runMoves connectedState [moveCallTo 1 0, moveCallTo 2 0]).currentX ≠
      (runMoves connectedState [moveCallTo 2 0, moveCallTo 1 0]).currentX ∧
    (runMoves connectedState [moveCallTo 1 0, moveCallTo 2 0]).currentX ≠
      (3 : ℚ) := by
  refine ⟨by decide, by decide, by decide, by decide⟩

/-- C6 amended: while connected, the final tracked position is the clamped
target of the last move whose transport call succeeded (absolute
positioning — call order matters), not a sum of deltas; each individual
move rounds its inputs with `Math.round` and clamps them to `≥ 0` (so a
coordinate is never negative), on success updates the position and
returns both the previous and the new position, and on transport failure
reports failure and leaves the state unchanged. -/
theorem move_absolute_semantics :
    ∀ (st : ArmState), st.isConnected = true → 0 < st.resourceHandle →
      (∀ ms : List MoveCall,
        (runMoves st ms).currentX =
          lastOkTarget st.currentX (fun i => i.x) ms ∧
        (runMoves st ms).currentY =
          lastOkTarget st.currentY (fun i => i.y) ms) ∧
      (∀ (input : ArmMoveInput) (http : HttpOracle) (fr : FrameOracle),
        ((executeArmMove input st http fr).output.success = true →
          (executeArmMove input st http fr).state.currentX =
            (clampCoord input.x : ℚ) ∧
          (executeArmMove input st http fr).state.currentY =
            (clampCoord input.y : ℚ) ∧
          (executeArmMove input st http fr).output.position =
            some ((clampCoord input.x : ℚ), (clampCoord input.y : ℚ)) ∧
          (executeArmMove input st http fr).output.previousPosition =
            some (st.currentX, st.currentY)) ∧
        (∀ e, http 0 = Except.error e →
          (executeArmMove input st http fr).state = st ∧
          (executeArmMove input st http fr).output.success = false)) ∧
      (∀ q : ℚ, (0 : ℤ) ≤ clampCoord q) := by
  intro st h1 h2
  refine ⟨fun ms => runMoves_tracks_lastOkTarget ms st h1 h2, ?_, fun q => le_max_left 0 _⟩
  intro input http fr
  constructor
  · intro h
    obtain ⟨hst, hpos, hprev⟩ := executeArmMove_success input st http fr h
    rw [hst]
    exact ⟨rfl, rfl, hpos, hprev⟩
  · intro e he
    exact executeArmMove_transport_error input st http fr e he

/-- C6 amended witness: the tracking law evaluated on a concrete
two-move sequence from the connected state. -/
theorem move_absolute_semantics_witness :
    connectedState.isConnected = true ∧
    0 < connectedState.resourceHandle ∧
    (runMoves connectedState [moveCallTo 3 5, moveCallTo 7 1]).currentX =
      lastOkTarget connectedState.currentX (fun i => i.x)
        [moveCallTo 3 5, moveCallTo 7 1] :=
  ⟨rfl, by decide,
   ((move_absolute_semantics connectedState rfl (by decide)).1
      [moveCallTo 3 5, moveCallTo 7 1]).1⟩

/-- C8 counterexample: a transport error during `arm-connect` does NOT
leave every field of `ArmState` unchanged.  `executeArmConnect` runs
`updateArmState({serverIP, comPort})` before the `try` block, so after the
transport call throws, the state differs from the pre-call state: its
`serverIP` is the attempted `10.0.0.1`. -/
theorem connect_transport_error_mutates :
    (executeArmConnect { serverIP := some "10.0.0.1", comPort := none }
        initialArmState httpAlwaysFail).1.success = false ∧
    (executeArmConnect { serverIP := some "10.0.0.1", comPort := none }
        initialArmState httpAlwaysFail).2 ≠ initialArmState ∧
    (executeArmConnect { serverIP := some "10.0.0.1", comPort := none }
        initialArmState httpAlwaysFail).2.serverIP = "10.0.0.1" := by
  refine ⟨by decide, by decide, by decide⟩

/-- C8 amended: when the transport call throws, move and click report
failure with every field of `ArmState` unchanged; connect reports failure
with every field except `serverIP` and `comPort` unchanged — those two are
set to the attempted connection target before the transport call (both on
a thrown transport call and on an unparseable/handle-`0` response);
disconnect remains the unconditional-cleanup exception. -/
theorem transport_error_state_shape :
    (∀ (input : ArmMoveInput) (st : ArmState) (http : HttpOracle)
      (fr : FrameOracle) (e : String), http 0 = Except.error e →
      (executeArmMove input st http fr).state = st ∧
      (executeArmMove input st http fr).output.success = false) ∧
    (∀ (input : ArmClickInput) (st : ArmState) (http : HttpOracle)
      (fr : FrameOracle),
      (∀ e, http 0 = Except.error e →
        (executeArmClick input st http fr).state = st ∧
        (executeArmClick input st http fr).output.success = false) ∧
      (∀ r e, http 0 = Except.ok r → http 1 = Except.error e →
        (executeArmClick input st http fr).state = st ∧
        (executeArmClick input st http fr).output.success = false)) ∧
    (∀ (input : ArmConnectInput) (st : ArmState) (http : HttpOracle),
      st.isConnected = false →
      ((∀ e, http 0 = Except.error e →
        (executeArmConnect input st http).2 =
          { st with serverIP := jsOrDefault input.serverIP defaultServerIP
                    comPort := jsOrDefault input.comPort defaultComPort } ∧
        (executeArmConnect input st http).1.success = false) ∧
      (∀ resp, http 0 = Except.ok resp → parseResourceHandle resp ≤ 0 →
        (executeArmConnect input st http).2 =
          { st with serverIP := jsOrDefault input.serverIP defaultServerIP
                    comPort := jsOrDefault input.comPort defaultComPort } ∧
        (executeArmConnect input st http).1.success = false))) := by
  refine ⟨?_, ?_, ?_⟩
  · intro input st http fr e he
    exact executeArmMove_transport_error input st http fr e he
  · intro input st http fr
    exact executeArmClick_transport_error input st http fr
  · intro input st http hconn
    constructor
    · intro e he
      unfold executeArmConnect
      rw [if_neg (by simp [hconn])]
      dsimp only
      rw [he]
      exact ⟨rfl, rfl⟩
    · intro resp hresp hle
      unfold executeArmConnect
      rw [if_neg (by simp [hconn])]
      dsimp only
      rw [hresp]
      dsimp only
      rw [if_neg (not_lt.mpr hle)]
      exact ⟨rfl, rfl⟩

/-- C8 amended witness: the shape law evaluated at concrete failing
transports — a move from the connected state whose call throws, a click
whose second call throws, and a connect from the initial state whose call
throws. -/
theorem transport_error_state_shape_witness :
    httpAlwaysFail 0 = Except.error "Request error: network down" ∧
    (executeArmMove { x := 3, y := 4, returnFrame := true } connectedState
        httpAlwaysFail (Except.ok none)).state = connectedState ∧
    httpFailFirst 0 = Except.error "Request error: network down" ∧
    (executeArmClick { depth := some 12, returnFrame := true } connectedState
        httpFailFirst (Except.ok none)).output.success = false ∧
    initialArmState.isConnected = false ∧
    (executeArmConnect { serverIP := some "10.0.0.1", comPort := none }
        initialArmState httpAlwaysFail).2 =
      { initialArmState with serverIP := jsOrDefault (some "10.0.0.1") defaultServerIP
                             comPort := jsOrDefault none defaultComPort } :=
  ⟨rfl,
   (transport_error_state_shape.1 { x := 3, y := 4, returnFrame := true }
      connectedState httpAlwaysFail (Except.ok none)
      "Request error: network down" rfl).1,
   rfl,
   ((transport_error_state_shape.2.1 { depth := some 12, returnFrame := true }
      connectedState httpFailFirst (Except.ok none)).1
      "Request error: network down" rfl).2,
   rfl,
   ((transport_error_state_shape.2.2 { serverIP := some "10.0.0.1", comPort := none }
      initialArmState httpAlwaysFail rfl).1
      "Request error: network down" rfl).1⟩

/-- C10: a successful `arm-move` changes only the position fields of
`ArmState` (`isConnected`, `resourceHandle`, `serverIP`, `comPort`,
`zDepth` are unchanged), and a successful `arm-click` changes only
`zDepth` (the position and every other field are unchanged). -/
theorem move_click_frame_conditions :
    ∀ (mi : ArmMoveInput) (ci : ArmClickInput) (st : ArmState)
      (http http2 : HttpOracle) (fr fr2 : FrameOracle),
      ((executeArmMove mi st http fr).output.success = true →
        (executeArmMove mi st http fr).state.isConnected = st.isConnected ∧
        (executeArmMove mi st http fr).state.resourceHandle = st.resourceHandle ∧
        (executeArmMove mi st http fr).state.serverIP = st.serverIP ∧
        (executeArmMove mi st http fr).state.comPort = st.comPort ∧
        (executeArmMove mi st http fr).state.zDepth = st.zDepth) ∧
      ((executeArmClick ci st http2 fr2).output.success = true →
        (executeArmClick ci st http2 fr2).state.currentX = st.currentX ∧
        (executeArmClick ci st http2 fr2).state.currentY = st.currentY ∧
        (executeArmClick ci st http2 fr2).state.isConnected = st.isConnected ∧
        (executeArmClick ci st http2 fr2).state.resourceHandle = st.resourceHandle ∧
        (executeArmClick ci st http2 fr2).state.serverIP = st.serverIP ∧
        (executeArmClick ci st http2 fr2).state.comPort = st.comPort) := by
  intro mi ci st http http2 fr fr2
  constructor
  · intro h
    rw [(executeArmMove_success mi st http fr h).1]
    exact ⟨rfl, rfl, rfl, rfl, rfl⟩
  · intro h
    rw [executeArmClick_success ci st http2 fr2 h]
    exact ⟨rfl, rfl, rfl, rfl, rfl, rfl⟩

/-- C10 witness: a concrete successful move leaves `zDepth` alone and a
concrete successful click leaves the position alone. -/
theorem move_click_frame_conditions_witness :
    (executeArmMove { x := 3, y := 4, returnFrame := false } connectedState
        httpAlwaysOk (Except.ok none)).output.success = true ∧
    (executeArmMove { x := 3, y := 4, returnFrame := false } connectedState
        httpAlwaysOk (Except.ok none)).state.zDepth = connectedState.zDepth ∧
    (executeArmClick { depth := some 9, returnFrame := false } connectedState
        httpAlwaysOk (Except.ok none)).output.success = true ∧
    (executeArmClick { depth := some 9, returnFrame := false } connectedState
        httpAlwaysOk (Except.ok none)).state.currentX = connectedState.currentX :=
  ⟨by decide,
   ((move_click_frame_conditions { x := 3, y := 4, returnFrame := false }
      { depth := some 9, returnFrame := false } connectedState
      httpAlwaysOk httpAlwaysOk (Except.ok none) (Except.ok none)).1
      (by decide)).2.2.2.2,
   by decide,
   ((move_click_frame_conditions { x := 3, y := 4, returnFrame := false }
      { depth := some 9, returnFrame := false } connectedState
      httpAlwaysOk httpAlwaysOk (Except.ok none) (Except.ok none)).2
      (by decide)).1⟩

end PhonePilot
